import Mathlib

/-!
Verification of the call-session registry and notification engine of the
voice-agent-launchpad repository.  The Lean definitions below are shallow
embeddings of the Python source files:

* src/main/telephony_manager.py  (call registry, end_call, update_call_status)
* src/main/egress_manager.py     (stop_recording)
* src/function_callings/tools_telephony.py  (phone validation/normalization)
* src/function_callings/tools_appointments.py  (webhook retry loop)
* src/end_call_report.py         (redirect-preserving POST, transcript merge)
* src/agent.py                   (minimum-activity gate for the shutdown report)

External effects (HTTP responses, the SIP provisioning call, wall-clock time)
are passed in as explicit inputs; emitted effects (webhook notifications,
remove-participant calls) are returned as explicit lists.  Timestamps are
rationals (seconds); Python int() truncation and round() are modelled
explicitly on the rationals.
-/

/-- Python int() applied to a real-valued number of seconds: truncation toward
zero (floor for nonnegative values, ceiling for negative ones).  Stated with
the executable Rat.floor so that concrete instances evaluate. -/
def pyTrunc (q : ℚ) : ℤ := if 0 ≤ q then Rat.floor q else -Rat.floor (-q)

lemma pyTrunc_of_nonneg {q : ℚ} (h : 0 ≤ q) : pyTrunc q = ⌊q⌋ := by
  unfold pyTrunc
  rw [if_pos h, Rat.floor_def', Rat.floor_def]

/-- Python round() on a number: round half to even. -/
def pyRound (q : ℚ) : ℤ :=
  let f := ⌊q⌋
  let r := q - (f : ℚ)
  if r < 1/2 then f
  else if 1/2 < r then f + 1
  else if Even f then f else f + 1

/-- Association-list read, mirroring a Python dict lookup keyed by call id. -/
def dictGet {α : Type} (m : List (String × α)) (k : String) : Option α :=
  match m with
  | [] => none
  | (k2, v) :: rest => if k2 = k then some v else dictGet rest k

/-- Association-list write, mirroring a Python dict assignment. -/
def dictSet {α : Type} (m : List (String × α)) (k : String) (v : α) :
    List (String × α) :=
  match m with
  | [] => [(k, v)]
  | (k2, v2) :: rest =>
    if k2 = k then (k2, v) :: rest else (k2, v2) :: dictSet rest k v

/-- Association-list delete, mirroring Python del d[k] (keys are unique). -/
def dictErase {α : Type} (m : List (String × α)) (k : String) :
    List (String × α) :=
  match m with
  | [] => []
  | (k2, v2) :: rest =>
    if k2 = k then rest else (k2, v2) :: dictErase rest k

namespace TelephonyManager

/-- CallDirection enum from telephony_manager.py. -/
inductive CallDirection where
  | inbound
  | outbound
deriving DecidableEq, Repr

/-- CallStatus enum from telephony_manager.py. -/
inductive CallStatus where
  | initiated
  | ringing
  | connected
  | completed
  | failed
  | busy
  | no_answer
deriving DecidableEq, Repr

/-- One transcript entry in the canonical role/text/timestamp shape used by
the webhook payloads. -/
structure TranscriptEntry where
  role : String
  text : String
  ts : String
deriving DecidableEq, Repr

/-- CallMetadata dataclass from telephony_manager.py.  Timestamps are
rational seconds; the open metadata mapping is a string association list. -/
structure CallMetadata where
  call_id : String
  direction : CallDirection
  phone_number : String
  room_name : String
  sip_participant_id : Option String := none
  start_time : Option ℚ := none
  end_time : Option ℚ := none
  status : CallStatus := .initiated
  duration_seconds : Option ℤ := none
  recording_url : Option String := none
  transcript : List TranscriptEntry := []
  metadata : List (String × String) := []
deriving DecidableEq, Repr

/-- Externally visible effects of one end_call invocation: the SIP
participant ids passed to remove_participant (attempted, whether or not the
provisioning call succeeds), and the webhook notifications sent, each an
event type together with the snapshot of the record at send time. -/
structure EndCallEffects where
  removed_participants : List String
  webhook_events : List (String × CallMetadata)
deriving DecidableEq, Repr

/-- The metadata update end_call performs at termination: end_time = now,
status = COMPLETED, and, when start_time is set, duration_seconds =
int((end_time - start_time).total_seconds()) — Python int() truncation. -/
def terminate_record (cm : CallMetadata) (now : ℚ) : CallMetadata :=
  { cm with
    end_time := some now
    status := .completed
    duration_seconds :=
      match cm.start_time with
      | some s => some (pyTrunc (now - s))
      | none => cm.duration_seconds }

/-- TelephonyManager.end_call from telephony_manager.py.

The registry (active_calls) is passed and returned explicitly; now is the
wall-clock time the code reads via datetime.now(); remove_ok tells whether
the external lkapi.room.remove_participant call succeeds (when it is
invoked at all).  The whole body after the lookup sits in one try block:
a raised removal error jumps to the except handler, which logs and returns
False, leaving the record untouched and registered.  The webhook helper
(_send_call_webhook) catches all of its own errors, and no other statement
in the block raises, so remove_ok is the only failure source. -/
def end_call (active_calls : List (String × CallMetadata)) (call_id : String)
    (now : ℚ) (remove_ok : Bool) :
    Bool × List (String × CallMetadata) × EndCallEffects :=
  match dictGet active_calls call_id with
  | none => (false, active_calls, ⟨[], []⟩)
  | some cm =>
    let finish : List String → Bool × List (String × CallMetadata) × EndCallEffects :=
      fun removed =>
        (true, dictErase active_calls call_id,
          ⟨removed, [("call_ended", terminate_record cm now)]⟩)
    match cm.sip_participant_id with
    | some pid =>
      if remove_ok then finish [pid]
      else (false, active_calls, ⟨[pid], []⟩)
    | none => finish []

/-- TelephonyManager.update_call_status from telephony_manager.py, modelling
an invocation that passes no extra keyword arguments (kwargs = {}).  The body
performs no check of the current status: it looks the id up and, when found,
overwrites status unconditionally and returns True. -/
def update_call_status (active_calls : List (String × CallMetadata))
    (call_id : String) (status : CallStatus) :
    Bool × List (String × CallMetadata) :=
  match dictGet active_calls call_id with
  | none => (false, active_calls)
  | some cm => (true, dictSet active_calls call_id { cm with status := status })

end TelephonyManager

namespace ToolsTelephony

/-- The digit characters of the input, in order: re.sub(r"\D", "", s) from
tools_telephony.py. -/
def digitsOnly (s : String) : List Char := s.data.filter Char.isDigit

/-- Python str.startswith with a one-character argument, on a char list. -/
def startsWithChar (l : List Char) (c : Char) : Bool :=
  match l with
  | [] => false
  | a :: _ => a = c

/-- _validate_phone_number from tools_telephony.py: length screen 7..15 on
the digit count, then the country/area-code cases. -/
def validate_phone_number (phone_number : String) : Bool :=
  let d := digitsOnly phone_number
  if d.length < 7 ∨ 15 < d.length then false
  else if d.length = 10 then true
  else if d.length = 11 ∧ startsWithChar d '1' = true then true
  else if 10 ≤ d.length then true
  else false

/-- _normalize_phone_number from tools_telephony.py. -/
def normalize_phone_number (phone_number : String) : String :=
  let d := digitsOnly phone_number
  if d.length = 10 then "+1" ++ String.mk d
  else if d.length = 11 ∧ startsWithChar d '1' = true then "+" ++ String.mk d
  else if ¬ (startsWithChar d '+' = true) then "+" ++ String.mk d
  else String.mk d

lemma startsWithChar_digits_plus (s : String) :
    startsWithChar (digitsOnly s) '+' = false := by
  unfold digitsOnly startsWithChar
  cases h : s.data.filter Char.isDigit with
  | nil => rfl
  | cons c t =>
    have hc : c ∈ s.data.filter Char.isDigit := h ▸ List.mem_cons_self c t
    have hd : Char.isDigit c = true := (List.mem_filter.mp hc).2
    simp only [decide_eq_false_iff_not]
    intro hEq
    subst hEq
    exact absurd hd (by decide)

end ToolsTelephony

/-- Claim C10: phone validation accepts an input exactly when it contains
between 10 and 15 digit characters (7-to-9-digit inputs fail despite the
initial 7..15 screen), and normalization of every accepted input yields
"+1" followed by the digits when there are exactly 10 of them and "+"
followed by the digit characters in order otherwise. -/
theorem C10_phone_validation_and_normalization (s : String) :
    (ToolsTelephony.validate_phone_number s = true ↔
      10 ≤ (ToolsTelephony.digitsOnly s).length ∧
        (ToolsTelephony.digitsOnly s).length ≤ 15) ∧
    (ToolsTelephony.validate_phone_number s = true →
      ToolsTelephony.normalize_phone_number s =
        if (ToolsTelephony.digitsOnly s).length = 10
        then "+1" ++ String.mk (ToolsTelephony.digitsOnly s)
        else "+" ++ String.mk (ToolsTelephony.digitsOnly s)) := by
  constructor
  · unfold ToolsTelephony.validate_phone_number
    dsimp only
    split_ifs with h1 h2 h3 h4 <;> simp_all
    omega
  · intro hv
    have hlen : 10 ≤ (ToolsTelephony.digitsOnly s).length ∧
        (ToolsTelephony.digitsOnly s).length ≤ 15 := by
      revert hv
      unfold ToolsTelephony.validate_phone_number
      dsimp only
      split_ifs with h1 h2 h3 h4 <;> simp_all
    unfold ToolsTelephony.normalize_phone_number
    dsimp only
    have hplus := ToolsTelephony.startsWithChar_digits_plus s
    split_ifs with h1 h2 h3 <;> simp_all

/-- Witness for C10 at a concrete ten-digit input. -/
theorem C10_phone_validation_and_normalization_witness :
    ToolsTelephony.validate_phone_number "(415) 555-1234" = true ∧
    ToolsTelephony.normalize_phone_number "(415) 555-1234" = "+14155551234" := by
  have h := C10_phone_validation_and_normalization "(415) 555-1234"
  exact ⟨(h.1).mpr (by decide), (h.2 ((h.1).mpr (by decide))).trans (by decide)⟩

namespace TelephonyManager

/-- A connected inbound call with a SIP participant attached, as tracked by
the registry after handle_inbound_call succeeds. -/
def connectedCall : CallMetadata :=
  { call_id := "inbound_1"
    direction := .inbound
    phone_number := "+15550001111"
    room_name := "room1"
    sip_participant_id := some "PA_sip_1"
    start_time := some 0
    status := .connected }

/-- A registry entry whose status has already reached the terminal state
COMPLETED. -/
def completedCall : CallMetadata :=
  { call_id := "done_1"
    direction := .outbound
    phone_number := "+15550002222"
    room_name := "room2"
    start_time := some 0
    end_time := some 30
    status := .completed
    duration_seconds := some 30 }

end TelephonyManager

/-- Counterexample to claim C1: when the external remove-participant call
fails, end_call does not complete termination — it returns false, sends no
notification, and leaves the record registered and unchanged (status still
CONNECTED, no end_time). -/
theorem C1_removal_failure_counterexample :
    (TelephonyManager.end_call [("inbound_1", TelephonyManager.connectedCall)]
        "inbound_1" 10 false) =
      (false, [("inbound_1", TelephonyManager.connectedCall)],
        ⟨["PA_sip_1"], []⟩) ∧
    TelephonyManager.connectedCall.status = .connected := by
  constructor
  · rfl
  · rfl

/-- Claim C1 (amended): for a tracked call whose SIP participant id is set,
a failing remove-participant call aborts termination — end_call returns
false, issues no notification, and leaves the registry untouched; only when
the removal succeeds does end_call set status = COMPLETED, set end_time,
compute duration_seconds, fire the call_ended notification with that final
snapshot, remove the record from the active set, and return true. -/
theorem C1_end_call_removal_outcome
    (m : List (String × TelephonyManager.CallMetadata)) (id : String)
    (cm : TelephonyManager.CallMetadata) (pid : String) (now : ℚ)
    (h : dictGet m id = some cm) (hp : cm.sip_participant_id = some pid) :
    TelephonyManager.end_call m id now false = (false, m, ⟨[pid], []⟩) ∧
    TelephonyManager.end_call m id now true =
      (true, dictErase m id,
        ⟨[pid], [("call_ended", TelephonyManager.terminate_record cm now)]⟩) ∧
    (TelephonyManager.terminate_record cm now).status = .completed ∧
    (TelephonyManager.terminate_record cm now).end_time = some now := by
  unfold TelephonyManager.end_call
  rw [h]
  dsimp only
  rw [hp]
  exact ⟨rfl, rfl, rfl, rfl⟩

/-- Witness for C1 at a concrete registry. -/
theorem C1_end_call_removal_outcome_witness :
    TelephonyManager.end_call
        [("inbound_1", TelephonyManager.connectedCall)] "inbound_1" 10 true =
      (true, [],
        ⟨["PA_sip_1"],
          [("call_ended",
            TelephonyManager.terminate_record TelephonyManager.connectedCall 10)]⟩) := by
  have h := C1_end_call_removal_outcome
    [("inbound_1", TelephonyManager.connectedCall)] "inbound_1"
    TelephonyManager.connectedCall "PA_sip_1" 10 rfl rfl
  exact h.2.1.trans rfl

/-- Counterexample to claim C2: update_call_status applied to a record whose
status is already terminal (COMPLETED) is not rejected — it overwrites the
status and returns true. -/
theorem C2_terminal_transition_counterexample :
    (TelephonyManager.update_call_status
        [("done_1", TelephonyManager.completedCall)] "done_1" .connected) =
      (true,
        [("done_1", { TelephonyManager.completedCall with status := .connected })]) := by
  decide

/-- Claim C2 (amended): update_call_status performs no terminal-state check:
for every call id present in the active registry, whatever the current
status — terminal states included — it unconditionally overwrites the status
and returns true; only an unknown call id is rejected (false, registry
unchanged), and no exception is raised in either case. -/
theorem C2_update_status_unconditional
    (m : List (String × TelephonyManager.CallMetadata)) (id : String)
    (cm : TelephonyManager.CallMetadata) (st : TelephonyManager.CallStatus)
    (h : dictGet m id = some cm) :
    TelephonyManager.update_call_status m id st =
      (true, dictSet m id { cm with status := st }) := by
  unfold TelephonyManager.update_call_status
  rw [h]

/-- Witness for C2 at a concrete registry: a COMPLETED record is moved back
to RINGING. -/
theorem C2_update_status_unconditional_witness :
    TelephonyManager.update_call_status
        [("done_1", TelephonyManager.completedCall)] "done_1" .ringing =
      (true,
        [("done_1", { TelephonyManager.completedCall with status := .ringing })]) := by
  have h := C2_update_status_unconditional
    [("done_1", TelephonyManager.completedCall)] "done_1"
    TelephonyManager.completedCall .ringing (by decide)
  exact h.trans (by decide)

lemma floor_27_10 : ⌊(27/10 : ℚ)⌋ = 2 := by
  rw [Int.floor_eq_iff] <;> norm_num

/-- Counterexample to claim C5: a call lasting 2.7 seconds is recorded with
duration_seconds = 2 (Python int() truncation), while round(2.7) = 3. -/
theorem C5_round_counterexample :
    (TelephonyManager.end_call [("inbound_1", TelephonyManager.connectedCall)]
        "inbound_1" (27/10) true).2.2.webhook_events.map
        (fun e => e.2.duration_seconds) = [some 2] ∧
    pyRound ((27/10 : ℚ) - 0) = 3 := by
  constructor
  · have h : TelephonyManager.end_call
        [("inbound_1", TelephonyManager.connectedCall)] "inbound_1" (27/10) true =
        (true, [],
          ⟨["PA_sip_1"],
            [("call_ended",
              TelephonyManager.terminate_record TelephonyManager.connectedCall
                (27/10))]⟩) := rfl
    rw [h]
    simp only [TelephonyManager.terminate_record, TelephonyManager.connectedCall,
      List.map_cons, List.map_nil]
    have ht : pyTrunc ((27:ℚ)/10) = 2 := by
      rw [pyTrunc_of_nonneg (by norm_num), floor_27_10]
    simp [ht]
  · unfold pyRound
    rw [sub_zero, floor_27_10]
    dsimp only
    rw [if_neg (by norm_num), if_pos (by norm_num)]
    norm_num

/-- Claim C5 (amended): whenever start_time is set, termination records
duration_seconds as the truncation toward zero of the elapsed seconds
(Python int(), which is the floor for the nonnegative durations that arise),
not the rounded value; end_time is set to the termination instant. -/
theorem C5_duration_is_floor_of_elapsed
    (m : List (String × TelephonyManager.CallMetadata)) (id : String)
    (cm : TelephonyManager.CallMetadata) (now s : ℚ)
    (h : dictGet m id = some cm) (hs : cm.start_time = some s)
    (hnn : s ≤ now) :
    ∃ cm2, (TelephonyManager.end_call m id now true).2.2.webhook_events =
        [("call_ended", cm2)] ∧
      cm2.start_time = some s ∧ cm2.end_time = some now ∧
      cm2.duration_seconds = some ⌊now - s⌋ := by
  refine ⟨TelephonyManager.terminate_record cm now, ?_, ?_, rfl, ?_⟩
  · unfold TelephonyManager.end_call
    rw [h]
    dsimp only
    cases cm.sip_participant_id <;> rfl
  · simpa [TelephonyManager.terminate_record] using hs
  · simp only [TelephonyManager.terminate_record, hs]
    rw [pyTrunc_of_nonneg (by linarith)]

/-- Witness for C5 at a concrete registry: a ten-second call. -/
theorem C5_duration_is_floor_of_elapsed_witness :
    ∃ cm2, (TelephonyManager.end_call
        [("inbound_1", TelephonyManager.connectedCall)] "inbound_1" 10
          true).2.2.webhook_events = [("call_ended", cm2)] ∧
      cm2.start_time = some 0 ∧ cm2.end_time = some 10 ∧
      cm2.duration_seconds = some 10 := by
  obtain ⟨cm2, h1, h2, h3, h4⟩ := C5_duration_is_floor_of_elapsed
    [("inbound_1", TelephonyManager.connectedCall)] "inbound_1"
    TelephonyManager.connectedCall 10 0 rfl rfl (by norm_num)
  exact ⟨cm2, h1, h2, h3, h4.trans (by norm_num)⟩

/-- Claim C8: end_call on a call id absent from the active registry returns
false and has no effects: the registry is unchanged, no remove-participant
call is issued, and no webhook notification is sent. -/
theorem C8_end_call_unknown_id
    (m : List (String × TelephonyManager.CallMetadata)) (id : String)
    (now : ℚ) (remove_ok : Bool) (h : dictGet m id = none) :
    TelephonyManager.end_call m id now remove_ok = (false, m, ⟨[], []⟩) := by
  unfold TelephonyManager.end_call
  rw [h]

/-- Witness for C8: an unknown id against a nonempty registry. -/
theorem C8_end_call_unknown_id_witness :
    TelephonyManager.end_call [("inbound_1", TelephonyManager.connectedCall)]
        "garbage" 5 true =
      (false, [("inbound_1", TelephonyManager.connectedCall)], ⟨[], []⟩) :=
  C8_end_call_unknown_id [("inbound_1", TelephonyManager.connectedCall)]
    "garbage" 5 true rfl


namespace ToolsAppointments

/-- Outcome of one webhook POST attempt as observed by the retry loop of
tools_appointments.py: an HTTP status code, or a raised network exception. -/
inductive AttemptOutcome where
  | status (code : ℕ)
  | exc
deriving DecidableEq, Repr

/-- The structured result the tool returns to its caller — never an
exception.  ok stands for the success dict, errorStatus c for the
"Failed to submit appointment (status c)" error dict, errorNetwork for the
"network error" error dict. -/
inductive SendStatus where
  | ok
  | errorStatus (code : ℕ)
  | errorNetwork
deriving DecidableEq, Repr

/-- Observable trace of one invocation: the result handed to the caller,
the number of POST attempts made, and the asyncio.sleep delays (in seconds)
between attempts, in order. -/
structure SendTrace where
  result : SendStatus
  attempts : ℕ
  delays : List ℚ
deriving DecidableEq, Repr

/-- The retry loop shared by confirm_and_send_appointment and
schedule_appointment in tools_appointments.py.  attempt is the 1-based
attempt counter; fuel = max_retries - attempt is the number of retries
still allowed, so fuel > 0 is exactly the loop guard attempt < max_retries.
A 2xx status returns the success result; a 5xx status with retries left
sleeps backoff * attempt seconds and retries; any other status fails fast
with the status error; an exception retries on the same schedule and yields
the network-error result once retries are exhausted. -/
def sendAttempts (server : ℕ → AttemptOutcome) (backoff : ℚ) :
    ℕ → ℕ → SendTrace
  | attempt, 0 =>
    match server attempt with
    | .status code =>
      if 200 ≤ code ∧ code < 300 then ⟨.ok, attempt, []⟩
      else ⟨.errorStatus code, attempt, []⟩
    | .exc => ⟨.errorNetwork, attempt, []⟩
  | attempt, f + 1 =>
    match server attempt with
    | .status code =>
      if 200 ≤ code ∧ code < 300 then ⟨.ok, attempt, []⟩
      else if 500 ≤ code ∧ code < 600 then
        let t := sendAttempts server backoff (attempt + 1) f
        ⟨t.result, t.attempts, backoff * (attempt : ℚ) :: t.delays⟩
      else ⟨.errorStatus code, attempt, []⟩
    | .exc =>
      let t := sendAttempts server backoff (attempt + 1) f
      ⟨t.result, t.attempts, backoff * (attempt : ℚ) :: t.delays⟩

/-- confirm_and_send_appointment from tools_appointments.py with the
webhook configured: max_retries = 3, backoff_seconds = 0.75 = 3/4,
starting at attempt 1 (so 3 - 1 = 2 retries remain).
schedule_appointment runs the identical loop. -/
def confirm_and_send_appointment (server : ℕ → AttemptOutcome) : SendTrace :=
  sendAttempts server (3/4) 1 2

lemma sendAttempts_attempts_le (server : ℕ → AttemptOutcome) (backoff : ℚ) :
    ∀ fuel attempt,
      (sendAttempts server backoff attempt fuel).attempts ≤ attempt + fuel := by
  intro fuel
  induction fuel with
  | zero =>
    intro attempt
    unfold sendAttempts
    cases server attempt with
    | status code =>
      dsimp only
      split_ifs <;> simp
    | exc => simp
  | succ f ih =>
    intro attempt
    unfold sendAttempts
    cases server attempt with
    | status code =>
      dsimp only
      split_ifs
      · simp
      · calc (sendAttempts server backoff (attempt + 1) f).attempts
            ≤ attempt + 1 + f := ih (attempt + 1)
          _ ≤ attempt + (f + 1) := by omega
      · simp
    | exc =>
      dsimp only
      calc (sendAttempts server backoff (attempt + 1) f).attempts
          ≤ attempt + 1 + f := ih (attempt + 1)
        _ ≤ attempt + (f + 1) := by omega

end ToolsAppointments

/-- Claim C3: with the webhook answering 500 on the first two attempts and
200 on the third, exactly 3 POST attempts occur with linearly increasing
delays 0.75s * 1 and 0.75s * 2 between them; a 404 answer yields exactly 1
attempt; an all-5xx or all-exception server exhausts the 3 attempts and
yields the structured error result; and for every server behavior at most 3
attempts occur and the caller receives one of the structured results rather
than an exception. -/
theorem C3_webhook_retry_policy :
    ((ToolsAppointments.confirm_and_send_appointment
        (fun n => if 3 ≤ n then .status 200 else .status 500)).result = .ok ∧
      (ToolsAppointments.confirm_and_send_appointment
        (fun n => if 3 ≤ n then .status 200 else .status 500)).attempts = 3 ∧
      (ToolsAppointments.confirm_and_send_appointment
        (fun n => if 3 ≤ n then .status 200 else .status 500)).delays =
        [3/4, 3/2]) ∧
    ((ToolsAppointments.confirm_and_send_appointment
        (fun _ => .status 404)).result = .errorStatus 404 ∧
      (ToolsAppointments.confirm_and_send_appointment
        (fun _ => .status 404)).attempts = 1 ∧
      (ToolsAppointments.confirm_and_send_appointment
        (fun _ => .status 404)).delays = []) ∧
    ((ToolsAppointments.confirm_and_send_appointment
        (fun _ => .status 500)).result = .errorStatus 500 ∧
      (ToolsAppointments.confirm_and_send_appointment
        (fun _ => .status 500)).attempts = 3) ∧
    ((ToolsAppointments.confirm_and_send_appointment
        (fun _ => .exc)).result = .errorNetwork ∧
      (ToolsAppointments.confirm_and_send_appointment
        (fun _ => .exc)).attempts = 3) ∧
    (∀ server,
      (ToolsAppointments.confirm_and_send_appointment server).attempts ≤ 3 ∧
      ((ToolsAppointments.confirm_and_send_appointment server).result = .ok ∨
        (∃ c, (ToolsAppointments.confirm_and_send_appointment server).result =
          .errorStatus c) ∨
        (ToolsAppointments.confirm_and_send_appointment server).result =
          .errorNetwork)) := by
  refine ⟨⟨rfl, rfl, ?_⟩, ⟨rfl, rfl, rfl⟩, ⟨rfl, rfl⟩, ⟨rfl, rfl⟩, ?_⟩
  · rw [show (ToolsAppointments.confirm_and_send_appointment
        (fun n => if 3 ≤ n then .status 200 else .status 500)).delays =
        [3/4 * ((1:ℕ) : ℚ), 3/4 * ((2:ℕ) : ℚ)] from rfl]
    norm_num
  · intro server
    refine ⟨ToolsAppointments.sendAttempts_attempts_le server (3/4) 2 1, ?_⟩
    cases h : (ToolsAppointments.confirm_and_send_appointment server).result with
    | ok => exact Or.inl rfl
    | errorStatus c => exact Or.inr (Or.inl ⟨c, rfl⟩)
    | errorNetwork => exact Or.inr (Or.inr rfl)

namespace EndCallReport

/-- An HTTP response as seen by _post_json_with_redirects: its status code
and the optional Location header. -/
structure HttpResponse where
  status : ℕ
  location : Option String
deriving DecidableEq, Repr

/-- One request issued by the client: target URL, HTTP method, JSON body.
The code only ever calls session.post(current_url, json=payload), so every
request it constructs is a POST carrying the original payload. -/
structure PostRequest where
  url : String
  method : String
  body : String
deriving DecidableEq, Repr

/-- The redirect status set {301, 302, 303, 307, 308} from
_post_json_with_redirects (identical in end_call_report.py and
tools_appointments.py). -/
def redirectStatuses : List ℕ := [301, 302, 303, 307, 308]

/-- The loop of _post_json_with_redirects.  server i is the response to the
i-th request issued; fuel counts the loop iterations still available after
the current one, so the initial call uses fuel = max_redirects, matching
range(max_redirects + 1).  A redirect response with a Location is followed
by re-POSTing the same body there while iterations remain; a redirect
without Location, any non-redirect response, or iteration exhaustion
returns the response just obtained.  Returns the list of requests issued
and the response returned. -/
def postLoop (server : ℕ → HttpResponse) (body : String) :
    ℕ → ℕ → String → List PostRequest × HttpResponse
  | i, 0, url =>
    ([⟨url, "POST", body⟩], server i)
  | i, f + 1, url =>
    let resp := server i
    if resp.status ∈ redirectStatuses then
      match resp.location with
      | none => ([⟨url, "POST", body⟩], resp)
      | some loc =>
        let rest := postLoop server body (i + 1) f loc
        (⟨url, "POST", body⟩ :: rest.1, rest.2)
    else ([⟨url, "POST", body⟩], resp)

/-- _post_json_with_redirects from end_call_report.py (the mixin method in
tools_appointments.py is identical): posts payload to url, following up to
max_redirects (default 3) redirect hops without downgrading the method. -/
def post_json_with_redirects (server : ℕ → HttpResponse)
    (url payload : String) (max_redirects : ℕ := 3) :
    List PostRequest × HttpResponse :=
  postLoop server payload 0 max_redirects url

lemma postLoop_requests_are_posts (server : ℕ → HttpResponse) (body : String) :
    ∀ fuel i url req, req ∈ (postLoop server body i fuel url).1 →
      req.method = "POST" ∧ req.body = body := by
  intro fuel
  induction fuel with
  | zero =>
    intro i url req h
    unfold postLoop at h
    simp only [List.mem_singleton] at h
    subst h
    exact ⟨rfl, rfl⟩
  | succ f ih =>
    intro i url req h
    unfold postLoop at h
    by_cases hs : (server i).status ∈ redirectStatuses
    · rw [if_pos hs] at h
      cases hl : (server i).location with
      | none =>
        rw [hl] at h
        simp only [List.mem_singleton] at h
        subst h
        exact ⟨rfl, rfl⟩
      | some loc =>
        rw [hl] at h
        simp only [List.mem_cons] at h
        rcases h with h | h
        · subst h
          exact ⟨rfl, rfl⟩
        · exact ih (i + 1) loc req h
    · rw [if_neg hs] at h
      simp only [List.mem_singleton] at h
      subst h
      exact ⟨rfl, rfl⟩

lemma postLoop_all_redirects (server : ℕ → HttpResponse) (body : String)
    (hr : ∀ i, (server i).status ∈ redirectStatuses)
    (hl : ∀ i, ∃ l, (server i).location = some l) :
    ∀ fuel i url, (postLoop server body i fuel url).1.length = fuel + 1 ∧
      (postLoop server body i fuel url).2 = server (i + fuel) := by
  intro fuel
  induction fuel with
  | zero =>
    intro i url
    exact ⟨rfl, rfl⟩
  | succ f ih =>
    intro i url
    obtain ⟨l, hli⟩ := hl i
    unfold postLoop
    rw [if_pos (hr i), hli]
    obtain ⟨ihlen, ihresp⟩ := ih (i + 1) l
    constructor
    · simpa using ihlen
    · rw [ihresp]
      congr 1
      omega

/-- Claim C4: the redirect-preserving POST re-issues a POST (never a GET)
with the same payload to the Location of a 301/302/303/307/308 response:
a server answering 302-with-Location then 200 sees exactly two requests,
both POST, both carrying the original body, and the 200 response is
returned; a redirect response without a Location header is itself returned
after a single request; when every response is a redirect with a Location,
the loop stops after max_redirects + 1 requests and returns the last
(still-redirect) response; and every request ever issued is a POST with
the original body. -/
theorem C4_redirect_preserving_post :
    (∀ (server : ℕ → EndCallReport.HttpResponse) (url loc payload : String),
      server 0 = ⟨302, some loc⟩ → (server 1).status = 200 →
      EndCallReport.post_json_with_redirects server url payload =
        ([⟨url, "POST", payload⟩, ⟨loc, "POST", payload⟩], server 1)) ∧
    (∀ (server : ℕ → EndCallReport.HttpResponse) (url payload : String),
      (server 0).status ∈ EndCallReport.redirectStatuses →
      (server 0).location = none →
      EndCallReport.post_json_with_redirects server url payload =
        ([⟨url, "POST", payload⟩], server 0)) ∧
    (∀ (server : ℕ → EndCallReport.HttpResponse) (url payload : String)
        (max_redirects : ℕ),
      (∀ i, (server i).status ∈ EndCallReport.redirectStatuses) →
      (∀ i, ∃ l, (server i).location = some l) →
      (EndCallReport.post_json_with_redirects server url payload
          max_redirects).1.length = max_redirects + 1 ∧
        (EndCallReport.post_json_with_redirects server url payload
          max_redirects).2 = server max_redirects) ∧
    (∀ (server : ℕ → EndCallReport.HttpResponse) (url payload : String)
        (max_redirects : ℕ) req,
      req ∈ (EndCallReport.post_json_with_redirects server url payload
        max_redirects).1 →
      req.method = "POST" ∧ req.body = payload) := by
  refine ⟨?_, ?_, ?_, ?_⟩
  · intro server url loc payload h0 h1
    unfold EndCallReport.post_json_with_redirects EndCallReport.postLoop
    rw [h0]
    rw [if_pos (by decide : (302 : ℕ) ∈ EndCallReport.redirectStatuses)]
    dsimp only
    unfold EndCallReport.postLoop
    rw [if_neg (by rw [h1]; decide)]
  · intro server url payload hs hl
    unfold EndCallReport.post_json_with_redirects EndCallReport.postLoop
    rw [if_pos hs, hl]
  · intro server url payload max_redirects hr hl
    have h := EndCallReport.postLoop_all_redirects server payload hr hl
      max_redirects 0 url
    refine ⟨h.1, ?_⟩
    unfold EndCallReport.post_json_with_redirects
    rw [h.2]
    congr 1
    omega
  · intro server url payload max_redirects req h
    exact EndCallReport.postLoop_requests_are_posts server payload
      max_redirects 0 url req h

/-- Witness for C4 at a concrete mock server: 302 with Location /final,
then 200. -/
theorem C4_redirect_preserving_post_witness :
    EndCallReport.post_json_with_redirects
        (fun i => if i = 0 then ⟨302, some "/final"⟩ else ⟨200, none⟩)
        "https://hook.example/a" "BODY" =
      ([⟨"https://hook.example/a", "POST", "BODY"⟩,
        ⟨"/final", "POST", "BODY"⟩], ⟨200, none⟩) := by
  have h := C4_redirect_preserving_post.1
    (fun i => if i = 0 then ⟨302, some "/final"⟩ else ⟨200, none⟩)
    "https://hook.example/a" "/final" "BODY" rfl rfl
  exact h.trans rfl

/-- The whitespace characters Python str.strip removes (ASCII subset). -/
def isPySpace (c : Char) : Bool :=
  decide (c = ' ' ∨ c = '\t' ∨ c = '\n' ∨ c = '\r' ∨ c = '\x0b' ∨ c = '\x0c')

/-- Python str.strip on a character list: drop whitespace from both ends. -/
def stripChars (l : List Char) : List Char :=
  ((l.dropWhile isPySpace).reverse.dropWhile isPySpace).reverse

/-- Python str.strip. -/
def pyStrip (s : String) : String := ⟨stripChars s.data⟩

/-- Python str.lower (ASCII). -/
def pyLower (s : String) : String := ⟨s.data.map Char.toLower⟩

/-- Python str.capitalize (ASCII): first character upper-cased, the rest
lower-cased. -/
def pyCapitalize (s : String) : String :=
  match s.data with
  | [] => ""
  | c :: cs => ⟨c.toUpper :: cs.map Char.toLower⟩

lemma string_data_inj (a b : String) (h : a.data = b.data) : a = b := by
  cases a
  cases b
  exact congrArg String.mk h

lemma stripChars_fix_dropWhile {l : List Char} (h : stripChars l = l) :
    l.dropWhile isPySpace = l := by
  have hs1 : l.dropWhile isPySpace <:+ l := List.dropWhile_suffix _
  have hs2 : (l.dropWhile isPySpace).reverse.dropWhile isPySpace <:+
      (l.dropWhile isPySpace).reverse := List.dropWhile_suffix _
  have hlen : (stripChars l).length = l.length := by rw [h]
  unfold stripChars at hlen
  have h1 := hs1.length_le
  have h2 := hs2.length_le
  simp only [List.length_reverse] at hlen h2
  exact hs1.eq_of_length (by omega)

lemma stripChars_fix_dropWhile_reverse {l : List Char} (h : stripChars l = l) :
    l.reverse.dropWhile isPySpace = l.reverse := by
  have hfix := stripChars_fix_dropWhile h
  unfold stripChars at h
  rw [hfix] at h
  have h2 := congrArg List.reverse h
  simpa using h2

lemma head_not_pySpace {l : List Char} (hne : l ≠ [])
    (hdw : l.dropWhile isPySpace = l) :
    ∃ a t, l = a :: t ∧ isPySpace a = false := by
  cases l with
  | nil => exact absurd rfl hne
  | cons a t =>
    refine ⟨a, t, rfl, ?_⟩
    rw [List.dropWhile_cons] at hdw
    by_cases hp : isPySpace a = true
    · rw [if_pos hp] at hdw
      have hsuf := (List.dropWhile_suffix (l := t) isPySpace).length_le
      have hlen := congrArg List.length hdw
      simp at hlen
      omega
    · simpa using hp

lemma stripChars_append_space {t1 t2 : List Char}
    (h1 : stripChars t1 = t1) (h1n : t1 ≠ [])
    (h2 : stripChars t2 = t2) (h2n : t2 ≠ []) :
    stripChars (t1 ++ ' ' :: t2) = t1 ++ ' ' :: t2 := by
  obtain ⟨a, t, hat, ha⟩ := head_not_pySpace h1n (stripChars_fix_dropWhile h1)
  obtain ⟨b, u, hbu, hb⟩ := head_not_pySpace
    (by simpa using h2n) (stripChars_fix_dropWhile_reverse h2)
  have hfront : (t1 ++ ' ' :: t2).dropWhile isPySpace = t1 ++ ' ' :: t2 := by
    rw [hat, List.cons_append, List.dropWhile_cons, if_neg (by simp [ha])]
  have hrev : (t1 ++ ' ' :: t2).reverse = t2.reverse ++ ' ' :: t1.reverse := by
    simp
  have hback : (t2.reverse ++ ' ' :: t1.reverse).dropWhile isPySpace =
      t2.reverse ++ ' ' :: t1.reverse := by
    rw [hbu, List.cons_append, List.dropWhile_cons, if_neg (by simp [hb])]
  unfold stripChars
  rw [hfront, hrev, hback, ← hrev, List.reverse_reverse]

lemma pyStrip_append_space {t1 t2 : String}
    (h1 : pyStrip t1 = t1) (h1n : t1 ≠ "")
    (h2 : pyStrip t2 = t2) (h2n : t2 ≠ "") :
    pyStrip (t1 ++ " " ++ t2) = t1 ++ " " ++ t2 := by
  apply string_data_inj
  have hdata : (t1 ++ " " ++ t2).data = t1.data ++ ' ' :: t2.data := by
    simp [String.data_append]
  show stripChars ((t1 ++ " " ++ t2).data) = (t1 ++ " " ++ t2).data
  rw [hdata]
  have h1d : stripChars t1.data = t1.data := congrArg String.data h1
  have h2d : stripChars t2.data = t2.data := congrArg String.data h2
  have h1dn : t1.data ≠ [] := fun hn => h1n (string_data_inj t1 "" hn)
  have h2dn : t2.data ≠ [] := fun hn => h2n (string_data_inj t2 "" hn)
  exact stripChars_append_space h1d h1dn h2d h2dn

/-- A normalized transcript item {role, text, ts} as produced by
_normalize_items in end_call_report.py. -/
structure NormItem where
  role : String
  text : String
  ts : String
deriving DecidableEq, Repr

/-- _merge_transcript from end_call_report.py: walk the items in order,
skip entries whose stripped text is empty, and append each remaining entry
to the output — except that an entry whose role equals the role of the
last output entry is folded into it, concatenating the texts with a single
space (then stripping) and overwriting the timestamp with the later one.
The accumulator is kept reversed and flipped at the end. -/
def merge_transcript (items : List NormItem) : List NormItem :=
  (items.foldl
    (fun acc it =>
      let text := pyStrip it.text
      if text = "" then acc
      else
        match acc with
        | last :: rest =>
          if last.role = it.role then
            ⟨last.role, pyStrip (last.text ++ " " ++ text), it.ts⟩ :: rest
          else ⟨it.role, text, it.ts⟩ :: last :: rest
        | [] => [⟨it.role, text, it.ts⟩])
    []).reverse

/-- The display mapping _as_text_block applies to a role: user → "User",
assistant/agent → "Agent", anything else capitalized. -/
def prettyRole (role : String) : String :=
  let role_l := pyLower role
  if role_l = "user" then "User"
  else if role_l = "assistant" ∨ role_l = "agent" then "Agent"
  else pyCapitalize role

/-- _as_text_block from end_call_report.py: one "Role: text" line per item
with non-empty stripped text, joined with newlines. -/
def as_text_block (items : List NormItem) : String :=
  String.intercalate "\n"
    (items.filterMap (fun it =>
      let text := pyStrip it.text
      if text = "" then none
      else some (prettyRole it.role ++ ": " ++ text)))

end EndCallReport

/-- Claim C6: merging concatenates adjacent items of equal role with a
single space keeping the later timestamp (stated for a pair of normalized
items, whose texts are stripped and non-empty); rendering maps user to
"User" and assistant/agent to "Agent"; and on the concrete input
user:"hi", user:"there", agent:"hello" the merge yields user:"hi there"
(timestamp of the second chunk) then agent:"hello", rendered as the block
"User: hi there\nAgent: hello". -/
theorem C6_transcript_merge_and_render :
    (∀ (r t1 t2 ts1 ts2 : String),
      EndCallReport.pyStrip t1 = t1 → t1 ≠ "" →
      EndCallReport.pyStrip t2 = t2 → t2 ≠ "" →
      EndCallReport.merge_transcript [⟨r, t1, ts1⟩, ⟨r, t2, ts2⟩] =
        [⟨r, t1 ++ " " ++ t2, ts2⟩]) ∧
    EndCallReport.prettyRole "user" = "User" ∧
    EndCallReport.prettyRole "agent" = "Agent" ∧
    EndCallReport.prettyRole "assistant" = "Agent" ∧
    EndCallReport.merge_transcript
        [⟨"user", "hi", "t1"⟩, ⟨"user", "there", "t2"⟩,
          ⟨"agent", "hello", "t3"⟩] =
      [⟨"user", "hi there", "t2"⟩, ⟨"agent", "hello", "t3"⟩] ∧
    EndCallReport.as_text_block
        (EndCallReport.merge_transcript
          [⟨"user", "hi", "t1"⟩, ⟨"user", "there", "t2"⟩,
            ⟨"agent", "hello", "t3"⟩]) =
      "User: hi there\nAgent: hello" := by
  refine ⟨?_, by decide, by decide, by decide, by decide, by decide⟩
  intro r t1 t2 ts1 ts2 h1 h1n h2 h2n
  unfold EndCallReport.merge_transcript
  simp only [List.foldl_cons, List.foldl_nil]
  rw [h1, if_neg h1n]
  dsimp only
  rw [h2, if_neg h2n, if_pos rfl]
  rw [EndCallReport.pyStrip_append_space h1 h1n h2 h2n]
  rfl

/-- Witness for C6: two adjacent user chunks merge into one turn. -/
theorem C6_transcript_merge_and_render_witness :
    EndCallReport.merge_transcript
        [⟨"user", "hi", "t1"⟩, ⟨"user", "there", "t2"⟩] =
      [⟨"user", "hi there", "t2"⟩] := by
  have h := C6_transcript_merge_and_render.1 "user" "hi" "there" "t1" "t2"
    (by decide) (by decide) (by decide) (by decide)
  exact h.trans (by decide)

namespace Agent

/-- One message of the session history dict consumed by
_send_shutdown_report in agent.py. -/
structure HistoryMessage where
  role : String
  text : String
deriving DecidableEq, Repr

/-- The minimum-activity gate of _send_shutdown_report (agent.py):
duration_ok is session_duration >= min_duration (min_duration comes from
MIN_SESSION_SECONDS_FOR_REPORT, default 5); has_user_activity is whether
some history message has role "user" and non-empty stripped text (Python
truthiness of (m.get("text") or "").strip()); the report is built and
delivered iff duration_ok or has_user_activity holds. -/
def should_send_report (session_duration min_duration : ℚ)
    (messages : List HistoryMessage) : Bool :=
  let duration_ok := decide (min_duration ≤ session_duration)
  let has_user_activity := messages.any (fun m =>
    decide (m.role = "user") && decide (EndCallReport.pyStrip m.text ≠ ""))
  duration_ok || has_user_activity

end Agent

/-- Claim C7: for a session shorter than the minimum-duration threshold,
the end-of-session report is delivered exactly when some history message
is a user message with non-empty (stripped) text; in particular a
2-second session with no user text is not delivered while a 2-second
session with one non-empty user message is (threshold at its default 5). -/
theorem C7_minimum_activity_gate :
    (∀ (min_duration : ℚ) (msgs : List Agent.HistoryMessage),
      2 < min_duration →
      (Agent.should_send_report 2 min_duration msgs = true ↔
        ∃ m ∈ msgs, m.role = "user" ∧ EndCallReport.pyStrip m.text ≠ "")) ∧
    Agent.should_send_report 2 5 [⟨"assistant", "hello, how can I help"⟩] =
      false ∧
    Agent.should_send_report 2 5
      [⟨"assistant", "hello, how can I help"⟩, ⟨"user", "hi"⟩] = true := by
  refine ⟨?_, by decide, by decide⟩
  intro min_duration msgs hlt
  unfold Agent.should_send_report
  rw [decide_eq_false (by linarith : ¬ min_duration ≤ 2)]
  simp [List.any_eq_true]

/-- Witness for C7: a sub-threshold session with one user message passes
the gate. -/
theorem C7_minimum_activity_gate_witness :
    Agent.should_send_report 2 5 [⟨"user", "hi"⟩] = true := by
  have h := (C7_minimum_activity_gate.1 5 [⟨"user", "hi"⟩] (by norm_num)).mpr
    ⟨⟨"user", "hi"⟩, by simp, rfl, by decide⟩
  exact h

namespace EgressManager

/-- Outcome of one external lkapi.egress.stop_egress call as seen by
stop_recording: a normal return, the expected "EGRESS_COMPLETE cannot be
stopped" exception raised once the job has already finished, or any other
exception. -/
inductive StopOutcome where
  | success
  | alreadyComplete
  | otherError
deriving DecidableEq, Repr

/-- The EgressManager fields stop_recording consults: whether self.lkapi
was initialized and the egress job id, if any.  stop_recording never
clears either field. -/
structure EgressState where
  has_lkapi : Bool
  egress_id : Option String
deriving DecidableEq, Repr

/-- EgressManager.stop_recording from egress_manager.py: True with no
external call when no egress is active (lkapi or egress_id unset); with an
active egress, True when the stop call returns or raises the expected
already-complete error, False on any other exception — every exception is
caught, so the caller never sees a raise.  No state is mutated. -/
def stop_recording (st : EgressState) (outcome : StopOutcome) :
    Bool × EgressState :=
  if st.has_lkapi = false ∨ st.egress_id = none then (true, st)
  else
    match outcome with
    | .success => (true, st)
    | .alreadyComplete => (true, st)
    | .otherError => (false, st)

end EgressManager

/-- Claim C9: stop_recording is idempotent — two consecutive calls both
return true without raising, whenever each stop attempt that reaches the
external service either succeeds or finds the egress already completed;
in particular both calls return true when no recording was ever started
(no attempt reaches the service at all, any outcomes), and the state is
never mutated, so the second call runs against the same fields. -/
theorem C9_stop_recording_idempotent :
    (∀ (st : EgressManager.EgressState)
        (o1 o2 : EgressManager.StopOutcome),
      o1 ≠ .otherError → o2 ≠ .otherError →
      (EgressManager.stop_recording st o1).1 = true ∧
      (EgressManager.stop_recording
        (EgressManager.stop_recording st o1).2 o2).1 = true) ∧
    (∀ (st : EgressManager.EgressState)
        (o1 o2 : EgressManager.StopOutcome),
      st.egress_id = none →
      (EgressManager.stop_recording st o1).1 = true ∧
      (EgressManager.stop_recording
        (EgressManager.stop_recording st o1).2 o2).1 = true) ∧
    (∀ (st : EgressManager.EgressState) (o : EgressManager.StopOutcome),
      (EgressManager.stop_recording st o).2 = st) := by
  refine ⟨?_, ?_, ?_⟩
  · intro st o1 o2 h1 h2
    cases o1 <;> cases o2 <;>
      simp_all [EgressManager.stop_recording, apply_ite]
  · intro st o1 o2 hnone
    unfold EgressManager.stop_recording
    rw [if_pos (Or.inr hnone), if_pos (Or.inr hnone)]
    exact ⟨rfl, rfl⟩
  · intro st o
    cases o <;> simp [EgressManager.stop_recording, apply_ite]

/-- Witness for C9: an active egress stopped twice, the second attempt
hitting the already-completed error. -/
theorem C9_stop_recording_idempotent_witness :
    (EgressManager.stop_recording ⟨true, some "EG_1"⟩ .success).1 = true ∧
    (EgressManager.stop_recording
      (EgressManager.stop_recording ⟨true, some "EG_1"⟩ .success).2
      .alreadyComplete).1 = true :=
  C9_stop_recording_idempotent.1 ⟨true, some "EG_1"⟩ .success .alreadyComplete
    (by decide) (by decide)
